import Mathlib

/-!
Verification of the analytics engine of `inflation_tracker`
(`app/service/analytics.py`) against its natural-language specification.

Shallow embedding conventions:
* pandas numeric columns are modelled as `ℚ` (`pd.NA`/`NaN` after
  `pd.to_numeric(..., errors of coerce)` becomes `Option.none`);
* a `pandas.DataFrame` of purchases is a `List RawRow`, in row order;
  `Purchase.to_dict` (app/models/purchase.py) always emits every column,
  so the `'col' in df.columns` branches of the Python code are taken as
  always-true and the corresponding dead branches are not modelled;
* timestamps are modelled by the civil-calendar day number (days since
  1970-01-01); the Python code renders periods back to ISO date strings
  for output, a bijective presentation step that is kept as the day
  number here;
* functions that can raise `ValueError` return `Except String _`.
-/

/-- A calendar date (no time component), as in `datetime.date`. -/
structure CalDate where
  year : Int
  month : Int
  day : Int
deriving DecidableEq, Repr

/-- Civil date → day number since 1970-01-01 (Howard Hinnant's
`days_from_civil` algorithm, using truncating integer division exactly
as the standard formulation does).  This embeds the timestamp arithmetic
that pandas performs on `datetime64` values. -/
def toDay (d : CalDate) : Int :=
  let y := if d.month ≤ 2 then d.year - 1 else d.year
  let era := (if 0 ≤ y then y else y - 399) / 400
  let yoe := y - era * 400
  let mp := (d.month + 9) % 12
  let doy := (153 * mp + 2) / 5 + d.day - 1
  let doe := yoe * 365 + yoe / 4 - yoe / 100 + doy
  era * 146097 + doe - 719468

/-- Day-of-week with Monday = 0 .. Sunday = 6 (the convention of
`pandas.Series.dt.weekday`).  1970-01-01 (day 0) was a Thursday, so the
weekday of day number `n` is `(n + 3) % 7`. -/
def weekdayOf (n : Int) : Int := (n + 3) % 7

/-- `_period_start` (analytics.py, lines 85–110): map a purchase date to
the start of its aggregation period, as a day number.
`day` keeps the (normalized) date; `week` moves back to Monday;
`month`/`year` move to the first day of the month/year. -/
def periodStart (group_by : String) (d : CalDate) : Int :=
  if group_by = "day" then toDay d
  else if group_by = "week" then toDay d - weekdayOf (toDay d)
  else if group_by = "month" then toDay ⟨d.year, d.month, 1⟩
  else toDay ⟨d.year, 1, 1⟩

/-- One row of the purchases DataFrame produced by `_purchases_to_df`
from `Purchase.to_dict()`.  Columns not read by the analytics code
(`measure_type`, `unit`, `promo_type`, `comment`) are omitted.
`none` stands for a null (or non-numeric, once coerced) cell. -/
structure RawRow where
  id : Int
  purchase_date : CalDate
  product_id : Option Int
  product : Option String
  category_id : Option Int
  category : Option String
  store_id : Option Int
  store : Option String
  quantity : Option ℚ
  total_price : Option ℚ
  unit_price : Option ℚ
  regular_unit_price : Option ℚ
  is_promo : Option Bool
deriving DecidableEq, Repr

/-- The admissible `group_by` literals. -/
def groupByValues : List String := ["day", "week", "month", "year"]

/-- The admissible `price_mode` literals. -/
def priceModeValues : List String := ["paid", "regular"]

/-- The admissible `promo_mode` literals. -/
def promoModeValues : List String := ["include", "exclude", "only"]

/-- The `ValueError` message of `_ensure_group_by`. -/
def groupByErr : String := "group_by must be one of: day, week, month, year"

/-- The `ValueError` message of `_ensure_price_mode`. -/
def priceModeErr : String := "price_mode must be paid or regular"

/-- The `ValueError` message of `_ensure_promo_mode`. -/
def promoModeErr : String := "promo_mode must be include/exclude/only"

/-- `_ensure_group_by`: validate the period-grouping literal, raising
`ValueError` on anything outside the admissible set. -/
def ensureGroupBy (group_by : String) : Except String String :=
  if group_by ∈ groupByValues then .ok group_by else .error groupByErr

/-- `_ensure_price_mode`: validate the price-mode literal. -/
def ensurePriceMode (price_mode : String) : Except String String :=
  if price_mode ∈ priceModeValues then .ok price_mode else .error priceModeErr

/-- `_ensure_promo_mode`: validate the promo-mode literal. -/
def ensurePromoMode (promo_mode : String) : Except String String :=
  if promo_mode ∈ promoModeValues then .ok promo_mode else .error promoModeErr

/-- `_apply_promo_filter` (analytics.py, lines 138–171).  A null
`is_promo` is `fillna(False)`-ed, i.e. treated as non-promotional.
The `is_promo` column always exists (see `Purchase.to_dict`), so the
missing-column branch is dead. -/
def applyPromoFilter (promo_mode : String) (df : List RawRow) : List RawRow :=
  if df = [] then df
  else if promo_mode = "include" then df
  else if promo_mode = "exclude" then df.filter (fun r => !(r.is_promo.getD false))
  else df.filter (fun r => r.is_promo.getD false)

/-- Effective unit price of one row per price mode
(`_compute_price_and_spend`, lines 212–230): `paid` uses `unit_price`;
`regular` uses `regular_unit_price` with per-row fallback to
`unit_price` (`reg.fillna(paid)`). -/
def unitPriceUsed (price_mode : String) (r : RawRow) : Option ℚ :=
  if price_mode = "paid" then r.unit_price
  else
    match r.regular_unit_price with
    | some v => some v
    | none => r.unit_price

/-- A prepared row, after `_prepare_df_for_index`: promo-filtered, with
positive numeric `quantity`, positive `unit_price_used`,
`spend = unit_price_used * quantity`, a `period` bucket and a non-null
integer `product_id`. -/
structure Row where
  id : Int
  period : Int
  purchase_date : CalDate
  product_id : Int
  product : Option String
  category_id : Option Int
  category : Option String
  store_id : Option Int
  store : Option String
  quantity : ℚ
  unit_price_used : ℚ
  spend : ℚ
deriving DecidableEq, Repr

/-- The per-row part of `_prepare_df_for_index`: quantity coercion and
positivity, price resolution and positivity, `spend`, period bucketing
and the non-null `product_id` requirement.  A `none` is a row dropped
by those filters. -/
def prepRow (price_mode group_by : String) (r : RawRow) : Option Row :=
  match r.quantity with
  | none => none
  | some q =>
    if 0 < q then
      match unitPriceUsed price_mode r with
      | none => none
      | some u =>
        if 0 < u then
          match r.product_id with
          | none => none
          | some pid =>
            some { id := r.id
                   period := periodStart group_by r.purchase_date
                   purchase_date := r.purchase_date
                   product_id := pid
                   product := r.product
                   category_id := r.category_id
                   category := r.category
                   store_id := r.store_id
                   store := r.store
                   quantity := q
                   unit_price_used := u
                   spend := u * q }
        else none
    else none

/-- `_prepare_df_for_index` (lines 240–311), minus the database fetch:
the engine is a pure function of the row list the repository returned
(the `is_promo=True` pre-filter used when `promo_mode = only` only
shrinks that list; the in-memory promo filter is re-applied regardless).
All per-row steps of the Python pipeline are fused into one row-by-row
`filterMap`, which is extensionally the same sequence of whole-column
operations. -/
def preparedOf (promo_mode price_mode group_by : String)
    (raws : List RawRow) : List Row :=
  (applyPromoFilter promo_mode raws).filterMap (prepRow price_mode group_by)

/-- Insert into a sorted list (helper of `sortByLe`). -/
def insertLe (le : α → α → Bool) (a : α) : List α → List α
  | [] => [a]
  | b :: bs => if le a b then a :: b :: bs else b :: insertLe le a bs

/-- Stable insertion sort: the embedding of `DataFrame.sort_values`
(which is stable).  Structural recursion keeps proofs and kernel
evaluation simple. -/
def sortByLe (le : α → α → Bool) : List α → List α
  | [] => []
  | a :: as => insertLe le a (sortByLe le as)

/-- Sum of `quantity` over the rows of a slice with a given product. -/
def sAggQty (slice : List Row) (pid : Int) : ℚ :=
  ((slice.filter (fun r => decide (r.product_id = pid))).map (·.quantity)).sum

/-- Sum of `spend` over the rows of a slice with a given product. -/
def sAggSpend (slice : List Row) (pid : Int) : ℚ :=
  ((slice.filter (fun r => decide (r.product_id = pid))).map (·.spend)).sum

/-- One row of a per-product aggregate of a single period slice. -/
structure AggItem where
  product_id : Int
  qty : ℚ
  spend : ℚ
deriving DecidableEq, Repr

/-- Average unit price of an aggregate (`spend / qty`). -/
def AggItem.price (a : AggItem) : ℚ := a.spend / a.qty

/-- `groupby('product_id').agg(qty sum, spend sum)` followed by the
positivity filter `qty > 0 & spend > 0` — the block done identically
for the base slice in `_laspeyres_index` (lines 381–387) and for the
base and target slices of `inflation_contributions` (lines 881–887 and
903–908).  `base_weight` is the aggregate `spend` (p0*q0) and
`base_price`/`price` is `AggItem.price`. -/
def sliceAgg (slice : List Row) : List AggItem :=
  ((slice.map (·.product_id)).dedup).filterMap (fun pid =>
    let q := sAggQty slice pid
    let s := sAggSpend slice pid
    if 0 < q ∧ 0 < s then some ⟨pid, q, s⟩ else none)

/-- Sum of `quantity` over the rows with a given (period, product). -/
def pAggQty (rows : List Row) (p pid : Int) : ℚ :=
  ((rows.filter (fun r => decide (r.period = p ∧ r.product_id = pid))).map
    (·.quantity)).sum

/-- Sum of `spend` over the rows with a given (period, product). -/
def pAggSpend (rows : List Row) (p pid : Int) : ℚ :=
  ((rows.filter (fun r => decide (r.period = p ∧ r.product_id = pid))).map
    (·.spend)).sum

/-- One row of the per-(period, product) aggregate `per_agg`. -/
structure PerItem where
  period : Int
  product_id : Int
  qty : ℚ
  spend : ℚ
deriving DecidableEq, Repr

/-- Average unit price of a per-period aggregate. -/
def PerItem.price (t : PerItem) : ℚ := t.spend / t.qty

/-- `per_agg` of `_laspeyres_index` (lines 408–414):
`groupby(['period','product_id']).agg(...)` with the positivity
filter. -/
def perAgg (rows : List Row) : List PerItem :=
  ((rows.map (fun r => (r.period, r.product_id))).dedup).filterMap (fun k =>
    let q := pAggQty rows k.1 k.2
    let s := pAggSpend rows k.1 k.2
    if 0 < q ∧ 0 < s then some ⟨k.1, k.2, q, s⟩ else none)

/-- `df['period'].min()` (0 on an empty frame, a case the callers
exclude before using it). -/
def minPeriod (rows : List Row) : Int :=
  match rows with
  | [] => 0
  | r :: rs => rs.foldl (fun a x => min a x.period) r.period

/-- `df['period'].max()` (0 on an empty frame). -/
def maxPeriod (rows : List Row) : Int :=
  match rows with
  | [] => 0
  | r :: rs => rs.foldl (fun a x => max a x.period) r.period

/-- The base-period slice `df[df['period'] == base_p]`. -/
def baseSliceOf (rows : List Row) (bp : Int) : List Row :=
  rows.filter (fun r => decide (r.period = bp))

/-- `base_agg`: the weighted basket of the base period. -/
def baseAgg (rows : List Row) (bp : Int) : List AggItem :=
  sliceAgg (baseSliceOf rows bp)

/-- One row of `merged`: a per-(period, product) price joined with the
base basket's price and weight for that product. -/
structure MRow where
  period : Int
  product_id : Int
  price : ℚ
  base_price : ℚ
  base_weight : ℚ
deriving DecidableEq, Repr

/-- `merged` of `_laspeyres_index` (lines 417–423): inner join of
`per_agg` with the base basket on `product_id` (whose key is unique on
the base side, so the pandas merge is a lookup), followed by the filter
`base_price > 0 & price > 0`. -/
def mergedRows (rows : List Row) (bp : Int) : List MRow :=
  (perAgg rows).filterMap (fun t =>
    ((baseAgg rows bp).find? (fun b => decide (b.product_id = t.product_id))).bind
      (fun b =>
        if (0 : ℚ) < b.price ∧ (0 : ℚ) < t.price then
          some ⟨t.period, t.product_id, t.price, b.price, b.spend⟩
        else none))

/-- A point of the Laspeyres basket index. -/
structure LPoint where
  period : Int
  index : ℚ
  coverage : ℚ
  items : Nat
deriving DecidableEq, Repr

/-- The KPI dict of `_laspeyres_index`; the empty-data returns fill the
same keys with `None`/zeros, modelled by `Option`/`0`. -/
structure LKpi where
  base_period : Option Int
  last_period : Option Int
  periods : Nat
  items_in_base : Nat
  items_total_base_weight : ℚ
  coverage_last : ℚ
  index_last : Option ℚ
  inflation_total : Option ℚ
deriving DecidableEq, Repr

/-- The `{'points': ..., 'kpi': ...}` result of `_laspeyres_index`. -/
structure LResult where
  points : List LPoint
  kpi : LKpi
deriving DecidableEq, Repr

/-- The zeroed KPI returned on the empty-data paths of
`_laspeyres_index` (lines 342–355, 366–379, 391–404). -/
def emptyLKpi (bp : Option Int) : LKpi :=
  ⟨bp, none, 0, 0, 0, 0, none, none⟩

/-- One row of `idx` (lines 428–438): the per-period weighted index,
coverage and distinct matched item count, over the merged rows of that
period. -/
def lPointOf (m : List MRow) (total : ℚ) (p : Int) : LPoint :=
  let pm := m.filter (fun x => decide (x.period = p))
  let sumWR := (pm.map (fun x => x.base_weight * (x.price / x.base_price))).sum
  let sumW := (pm.map (·.base_weight)).sum
  ⟨p, 100 * sumWR / sumW, sumW / total, ((pm.map (·.product_id)).dedup).length⟩

/-- The point list of `_laspeyres_index` (lines 428–450): one point per
period occurring in `merged`, sorted ascending. -/
def laspeyresPoints (rows : List Row) (bp : Int) : List LPoint :=
  (sortByLe (fun a b => decide (a ≤ b))
    (((mergedRows rows bp).map (·.period)).dedup)).map
    (lPointOf (mergedRows rows bp) (((baseAgg rows bp).map (·.spend)).sum))

/-- The body of `_laspeyres_index` once the base period is fixed
(lines 365–464).  The final `match` arm for an empty point list is
unreachable when the base basket is non-empty (the base period always
matches itself, as proven below); the Python code would hit an
`IndexError` there, and no claim touches that arm. -/
def laspeyresWithBase (rows : List Row) (bp : Int) : LResult :=
  if baseSliceOf rows bp = [] then ⟨[], emptyLKpi (some bp)⟩
  else if baseAgg rows bp = [] then ⟨[], emptyLKpi (some bp)⟩
  else
    match (laspeyresPoints rows bp).getLast? with
    | none => ⟨[], emptyLKpi (some bp)⟩
    | some last =>
      ⟨laspeyresPoints rows bp,
       ⟨some bp, some last.period, (laspeyresPoints rows bp).length,
        (baseAgg rows bp).length,
        ((baseAgg rows bp).map (·.spend)).sum,
        last.coverage, some last.index, some (last.index - 100)⟩⟩

/-- `_laspeyres_index` (lines 314–464): the base period defaults to the
minimum period of the prepared data. -/
def laspeyres_index (rows : List Row) (base_period : Option Int) : LResult :=
  if rows = [] then ⟨[], emptyLKpi none⟩
  else laspeyresWithBase rows (base_period.getD (minPeriod rows))

/-- A Python dict value, for KPI dicts whose key set itself matters.
Periods/dates are day numbers (the code renders them as ISO strings). -/
inductive PyVal where
  | pInt : Int → PyVal
  | pRat : ℚ → PyVal
  | pStr : String → PyVal
  | pNone : PyVal
deriving DecidableEq, Repr

/-- A point of `product_inflation_index` (lines 592–598). -/
structure ProductPoint where
  period : Int
  avg_unit_price : ℚ
  index_100 : ℚ
  inflation_pct_from_base : ℚ
  n : Nat
deriving DecidableEq, Repr

/-- The `{'points', 'kpi'}` result of `product_inflation_index`; its
KPI dict is kept as a key/value list so that its key set is part of the
model. -/
structure ProductResult where
  points : List ProductPoint
  kpi : Option (List (String × PyVal))
deriving DecidableEq, Repr

/-- One row of the per-period aggregate of `product_inflation_index`
(lines 547–557): spend and qty sums and the row count `n` (the `id`
column is never null, so `count` is the group size). -/
structure PAgg where
  period : Int
  spend : ℚ
  qty : ℚ
  n : Nat
deriving DecidableEq, Repr

/-- `avg_unit_price = spend / qty` (line 561). -/
def PAgg.avg (a : PAgg) : ℚ := a.spend / a.qty

/-- `groupby('period').agg(spend sum, qty sum, n count)` with the
positivity filter (lines 547–557). -/
def productAgg (df : List Row) : List PAgg :=
  ((df.map (·.period)).dedup).filterMap (fun p =>
    let sub := df.filter (fun r => decide (r.period = p))
    let s := (sub.map (·.spend)).sum
    let q := (sub.map (·.quantity)).sum
    if 0 < q ∧ 0 < s then some ⟨p, s, q, sub.length⟩ else none)

/-- The post-preparation body of `product_inflation_index`
(lines 539–602).  The KPI dict mirrors lines 579–590 key for key. -/
def productIndexCore (product_id : Int) (df0 : List Row) : ProductResult :=
  if df0 = [] then ⟨[], none⟩
  else
    let df := df0.filter (fun r => decide (r.product_id = product_id))
    if df = [] then ⟨[], none⟩
    else
      match sortByLe (fun a b => decide (a.period ≤ b.period)) (productAgg df) with
      | [] => ⟨[], none⟩
      | a0 :: rest =>
        let base_price := a0.avg
        if base_price ≤ 0 then ⟨[], none⟩
        else
          let points := (a0 :: rest).map (fun a =>
            ProductPoint.mk a.period a.avg (a.avg / base_price * 100)
              (a.avg / base_price * 100 - 100) a.n)
          let last := (a0 :: rest).getLastD a0
          let prev? : Option PAgg :=
            match (a0 :: rest).reverse with
            | _ :: pv :: _ => some pv
            | _ => none
          let mom : Option ℚ :=
            match prev? with
            | some pv =>
              if (0 : ℚ) < pv.avg then some ((last.avg / pv.avg - 1) * 100) else none
            | none => none
          ⟨points, some
            [("product_id", .pInt product_id),
             ("base_period", .pInt a0.period),
             ("base_price", .pRat base_price),
             ("last_period", .pInt last.period),
             ("last_avg_unit_price", .pRat last.avg),
             ("last_index_100", .pRat (last.avg / base_price * 100)),
             ("change_vs_prev_period_pct",
               match mom with
               | some v => .pRat v
               | none => .pNone),
             ("last_n", .pInt (Int.ofNat last.n))]⟩

/-- `product_inflation_index` (lines 501–602), as a pure function of
the fetched rows: the three literal validations (raising in this
order), then the pure body on the prepared rows. -/
def product_inflation_index (product_id : Int)
    (group_by price_mode promo_mode : String)
    (raws : List RawRow) : Except String ProductResult :=
  match ensureGroupBy group_by with
  | .error e => .error e
  | .ok g =>
    match ensurePriceMode price_mode with
    | .error e => .error e
    | .ok pm =>
      match ensurePromoMode promo_mode with
      | .error e => .error e
      | .ok mm => .ok (productIndexCore product_id (preparedOf mm pm g raws))

/-- `basket_inflation_index` (lines 605–639): validation, preparation,
then the Laspeyres calculator with the default base period.  (The
`product_ids` basket restriction happens in the repository fetch, i.e.
upstream of `raws`.) -/
def basket_inflation_index (group_by price_mode promo_mode : String)
    (raws : List RawRow) : Except String LResult :=
  match ensureGroupBy group_by with
  | .error e => .error e
  | .ok g =>
    match ensurePriceMode price_mode with
    | .error e => .error e
    | .ok pm =>
      match ensurePromoMode promo_mode with
      | .error e => .error e
      | .ok mm => .ok (laspeyres_index (preparedOf mm pm g raws) none)

/-- One row of the matched basket of `inflation_contributions`. -/
structure CMRow where
  product_id : Int
  ratio : ℚ
  base_weight : ℚ
deriving DecidableEq, Repr

/-- `merged` of `inflation_contributions` (lines 902–928): the target
slice aggregated per product, inner-joined against the base basket
(base = min period, target = max period), positive-filtered, with
`ratio = price / base_price` and the base spend as weight. -/
def contribMerged (df : List Row) : List CMRow :=
  let bAgg := baseAgg df (minPeriod df)
  let tAgg := sliceAgg (df.filter (fun r => decide (r.period = maxPeriod df)))
  tAgg.filterMap (fun t =>
    (bAgg.find? (fun b => decide (b.product_id = t.product_id))).bind
      (fun b =>
        if (0 : ℚ) < b.price ∧ (0 : ℚ) < t.price then
          some ⟨t.product_id, t.price / b.price, b.spend⟩
        else none))

/-- The name enrichment of lines 937–942: the first non-null product
name for the id (pandas `dropna` + `drop_duplicates` keep-first +
left merge; an unmatched id yields a null name).  When no row at all
has a name, the code falls back to `str(product_id)`. -/
def nameOf (df : List Row) (pid : Int) : Option String :=
  if df.any (fun r => r.product.isSome) then
    (df.find? (fun r => r.product.isSome && decide (r.product_id = pid))).bind
      (·.product)
  else some (toString pid)

/-- The category map of lines 967–984: the first row with a non-null
`category_id` for the product; missing mapping → `(-1, "UNKNOWN")`,
and a null category name is `fillna`-ed to `"UNKNOWN"`. -/
def catOf (df : List Row) (pid : Int) : Int × String :=
  match df.find? (fun r => r.category_id.isSome && decide (r.product_id = pid)) with
  | some r => (r.category_id.getD (-1), r.category.getD "UNKNOWN")
  | none => (-1, "UNKNOWN")

/-- A `by=product` contribution point (lines 947–956). -/
structure CPPoint where
  product_id : Int
  product : Option String
  ratio : ℚ
  contribution : ℚ
  share_w : ℚ
deriving DecidableEq, Repr

/-- A `by=category` contribution point (lines 998–1007). -/
structure CCPoint where
  category_id : Int
  category : String
  contribution : ℚ
  share_w : ℚ
  items : Nat
deriving DecidableEq, Repr

/-- A point of `inflation_contributions`: the two grouping modes emit
differently-shaped dicts into the same `points` list position. -/
inductive ContribPoint where
  | productPoint : CPPoint → ContribPoint
  | categoryPoint : CCPoint → ContribPoint
deriving DecidableEq, Repr

/-- The KPI dict of `inflation_contributions`; the empty-data returns
omit `covered_weight` (and fill the periods with `None`), modelled by
`Option`. -/
structure CKpi where
  by_ : String
  base_period : Option Int
  target_period : Option Int
  covered_weight : Option ℚ
deriving DecidableEq, Repr

/-- The `{'points', 'kpi'}` result of `inflation_contributions`. -/
structure CResult where
  points : List ContribPoint
  kpi : CKpi
deriving DecidableEq, Repr

/-- The post-preparation body of `inflation_contributions`
(lines 865–1014): `share_w` and `contribution` are computed on the
full matched basket (lines 930–934) before the `top`-truncation
`head(max(1, int(top)))`.  Any `by` literal other than `product` takes
the category branch, exactly as the Python `if by == 'product'` does. -/
def contributionsCore (by_ : String) (top : Int) (df : List Row) : CResult :=
  if df = [] then ⟨[], ⟨by_, none, none, none⟩⟩
  else
    let bp := minPeriod df
    let tp := maxPeriod df
    if baseAgg df bp = [] then ⟨[], ⟨by_, some bp, some tp, none⟩⟩
    else
      let merged := contribMerged df
      if merged = [] then ⟨[], ⟨by_, some bp, some tp, none⟩⟩
      else
        let sum_w := (merged.map (·.base_weight)).sum
        if by_ = "product" then
          let enriched := merged.map (fun c =>
            CPPoint.mk c.product_id (nameOf df c.product_id) c.ratio
              (c.base_weight / sum_w * (c.ratio - 1) * 100) (c.base_weight / sum_w))
          let out := (sortByLe (fun a b => decide (b.contribution ≤ a.contribution))
            enriched).take (max 1 top).toNat
          ⟨out.map .productPoint, ⟨"product", some bp, some tp, some sum_w⟩⟩
        else
          let merged2 := merged.map (fun c => (c, catOf df c.product_id))
          let keys := (merged2.map (·.2)).dedup
          let cat := keys.map (fun k =>
            let sub := merged2.filter (fun x => decide (x.2 = k))
            CCPoint.mk k.1 k.2
              ((sub.map (fun x => x.1.base_weight / sum_w * (x.1.ratio - 1) * 100)).sum)
              ((sub.map (fun x => x.1.base_weight / sum_w)).sum)
              ((sub.map (fun x => x.1.product_id)).dedup).length)
          let out := (sortByLe (fun a b => decide (b.contribution ≤ a.contribution))
            cat).take (max 1 top).toNat
          ⟨out.map .categoryPoint, ⟨"category", some bp, some tp, some sum_w⟩⟩

/-- `inflation_contributions` (lines 813–1014), as a pure function of
the fetched rows: validation, preparation, then `contributionsCore`. -/
def inflation_contributions (by_ : String)
    (group_by price_mode promo_mode : String) (top : Int)
    (raws : List RawRow) : Except String CResult :=
  match ensureGroupBy group_by with
  | .error e => .error e
  | .ok g =>
    match ensurePriceMode price_mode with
    | .error e => .error e
    | .ok pm =>
      match ensurePromoMode promo_mode with
      | .error e => .error e
      | .ok mm => .ok (contributionsCore by_ top (preparedOf mm pm g raws))

/-- A point of `product_store_price_stats` (lines 786–800).
`last_date` is a day number; it is never null because
`purchase_date` is a non-nullable column. -/
structure StatsPoint where
  store_id : Int
  store : String
  avg_unit_price : ℚ
  min_unit_price : ℚ
  max_unit_price : ℚ
  qty : ℚ
  purchases : Nat
  last_date : Int
deriving DecidableEq, Repr

/-- The KPI dict of `product_store_price_stats`; the empty-data return
carries only `product_id` and `stores = 0`, modelled by `none` best
fields. -/
structure StatsKpi where
  product_id : Int
  stores : Nat
  best_store_id : Option Int
  best_avg_unit_price : Option ℚ
deriving DecidableEq, Repr

/-- The `{'points', 'kpi'}` result of `product_store_price_stats`. -/
structure StatsResult where
  points : List StatsPoint
  kpi : StatsKpi
deriving DecidableEq, Repr

/-- Minimum of a list of rationals (0 on [], a case the caller
excludes). -/
def listMinQ : List ℚ → ℚ
  | [] => 0
  | x :: xs => xs.foldl min x

/-- Maximum of a list of rationals (0 on []). -/
def listMaxQ : List ℚ → ℚ
  | [] => 0
  | x :: xs => xs.foldl max x

/-- Maximum of a list of integers (0 on []). -/
def listMaxI : List Int → Int
  | [] => 0
  | x :: xs => xs.foldl max x

/-- One row of the per-store aggregate `g` (lines 769–783). -/
structure SAgg where
  store_id : Int
  store : String
  qty : ℚ
  spend : ℚ
  purchases : Nat
  min_price : ℚ
  max_price : ℚ
  last_date : Int
deriving DecidableEq, Repr

/-- `avg_unit_price = spend / qty` (line 783). -/
def SAgg.avg (gr : SAgg) : ℚ := gr.spend / gr.qty

/-- `groupby(['store_id', 'store']).agg(...)` with the positivity
filter (lines 769–782); `df` has already been filtered to non-null
`store_id`, and pandas `groupby` drops the rows whose store name is
null.  `purchases` counts the group rows (`id` is never null). -/
def storeAgg (df : List Row) : List SAgg :=
  let keyed := df.filterMap (fun r =>
    r.store.map (fun s => ((r.store_id.getD 0, s), r)))
  ((keyed.map (·.1)).dedup).filterMap (fun k =>
    let sub := (keyed.filter (fun x => decide (x.1 = k))).map (·.2)
    let q := (sub.map (·.quantity)).sum
    let s := (sub.map (·.spend)).sum
    if 0 < q ∧ 0 < s then
      some ⟨k.1, k.2, q, s, sub.length,
            listMinQ (sub.map (·.unit_price_used)),
            listMaxQ (sub.map (·.unit_price_used)),
            listMaxI (sub.map (fun r => toDay r.purchase_date))⟩
    else none)

/-- The post-preparation body of `product_store_price_stats`
(lines 756–810). -/
def storeStatsCore (product_id : Int) (df0 : List Row) : StatsResult :=
  if df0 = [] then ⟨[], ⟨product_id, 0, none, none⟩⟩
  else
    let df := df0.filter (fun r => r.store_id.isSome)
    let g := sortByLe (fun a b => decide (a.avg ≤ b.avg)) (storeAgg df)
    ⟨g.map (fun gr =>
        StatsPoint.mk gr.store_id gr.store gr.avg gr.min_price gr.max_price
          gr.qty gr.purchases gr.last_date),
     ⟨product_id, g.length, g.head?.map (·.store_id), g.head?.map SAgg.avg⟩⟩

/-- `product_store_price_stats` (lines 721–810), as a pure function of
the fetched rows (the grouping is hard-wired to `day`). -/
def product_store_price_stats (product_id : Int)
    (price_mode promo_mode : String)
    (raws : List RawRow) : Except String StatsResult :=
  match ensurePriceMode price_mode with
  | .error e => .error e
  | .ok pm =>
    match ensurePromoMode promo_mode with
    | .error e => .error e
    | .ok mm => .ok (storeStatsCore product_id (preparedOf mm pm "day" raws))

/-! ### Infrastructure lemmas -/

theorem mem_insertLe {le : α → α → Bool} {a x : α} {l : List α} :
    x ∈ insertLe le a l ↔ x = a ∨ x ∈ l := by
  induction l with
  | nil => simp [insertLe]
  | cons b bs ih =>
    by_cases h : le a b
    · simp [insertLe, h]
    · simp only [insertLe, h, Bool.false_eq_true, if_false, List.mem_cons, ih]
      tauto

theorem mem_sortByLe {le : α → α → Bool} {x : α} {l : List α} :
    x ∈ sortByLe le l ↔ x ∈ l := by
  induction l with
  | nil => simp [sortByLe]
  | cons a as ih => simp [sortByLe, mem_insertLe, ih]

theorem insertLe_ne_nil {le : α → α → Bool} {a : α} {l : List α} :
    insertLe le a l ≠ [] := by
  cases l with
  | nil => simp [insertLe]
  | cons b bs => by_cases h : le a b <;> simp [insertLe, h]

theorem sortByLe_eq_nil {le : α → α → Bool} {l : List α} :
    sortByLe le l = [] ↔ l = [] := by
  cases l with
  | nil => simp [sortByLe]
  | cons a as => simp only [sortByLe]; exact ⟨fun h => absurd h insertLe_ne_nil, fun h => by cases h⟩

theorem filterMap_map_key {α β κ : Type _} {l : List α} {f : α → Option β}
    {keyb : α → κ} {key : β → κ}
    (hf : ∀ a b, f a = some b → key b = keyb a) :
    (l.filterMap f).map key = (l.filter (fun a => (f a).isSome)).map keyb := by
  induction l with
  | nil => simp
  | cons a as ih =>
    cases h : f a with
    | none => simp [List.filterMap_cons, h, List.filter_cons, ih]
    | some b => simp [List.filterMap_cons, h, List.filter_cons, hf a b h, ih]

theorem nodup_key_filterMap {α β κ : Type _} {l : List α} {f : α → Option β}
    (keyb : α → κ) (key : β → κ)
    (h : (l.map keyb).Nodup)
    (hf : ∀ a b, f a = some b → key b = keyb a) :
    ((l.filterMap f).map key).Nodup := by
  rw [filterMap_map_key hf]
  exact h.sublist (List.Sublist.map keyb (List.filter_sublist l))

theorem find?_key_unique {β κ : Type _} [DecidableEq κ] {l : List β}
    (key : β → κ) (h : (l.map key).Nodup) {b : β} (hb : b ∈ l) :
    l.find? (fun x => decide (key x = key b)) = some b := by
  induction l with
  | nil => simp at hb
  | cons c cs ih =>
    rw [List.map_cons, List.nodup_cons] at h
    rcases List.mem_cons.mp hb with rfl | hb'
    · simp [List.find?_cons]
    · have hne : ¬(key c = key b) := by
        intro he
        exact h.1 (he ▸ List.mem_map_of_mem key hb')
      rw [List.find?_cons]
      simp only [hne, decide_eq_false, Bool.false_eq_true, if_false]
      exact ih h.2 hb'

theorem list_sum_map_div {α : Type _} {l : List α} (f : α → ℚ) (c : ℚ) :
    (l.map (fun x => f x / c)).sum = (l.map f).sum / c := by
  induction l with
  | nil => simp
  | cons x xs ih => simp [ih, add_div]

theorem list_sum_pos {α : Type _} {l : List α} {f : α → ℚ}
    (h : ∀ x ∈ l, 0 < f x) (hne : l ≠ []) :
    0 < (l.map f).sum := by
  cases l with
  | nil => exact absurd rfl hne
  | cons x xs =>
    have hx := h x (List.mem_cons_self _ _)
    have hxs : 0 ≤ (xs.map f).sum :=
      List.sum_nonneg (by
        intro q hq
        obtain ⟨y, hy, rfl⟩ := List.mem_map.mp hq
        exact le_of_lt (h y (List.mem_cons_of_mem _ hy)))
    simpa using add_pos_of_pos_of_nonneg hx hxs

theorem list_sum_le_of_sub {l₁ l₂ : List Int} (W : Int → ℚ)
    (h₁ : l₁.Nodup) (h₂ : l₂.Nodup) (hsub : ∀ a ∈ l₁, a ∈ l₂)
    (hw : ∀ a, 0 ≤ W a) :
    (l₁.map W).sum ≤ (l₂.map W).sum := by
  rw [← List.sum_toFinset W h₁, ← List.sum_toFinset W h₂]
  refine Finset.sum_le_sum_of_subset_of_nonneg ?_ (fun i _ _ => hw i)
  intro a ha
  rw [List.mem_toFinset] at ha ⊢
  exact hsub a ha

theorem list_sum_eq_of_toFinset_eq {l₁ l₂ : List Int} (W : Int → ℚ)
    (h₁ : l₁.Nodup) (h₂ : l₂.Nodup) (heq : l₁.toFinset = l₂.toFinset) :
    (l₁.map W).sum = (l₂.map W).sum := by
  rw [← List.sum_toFinset W h₁, ← List.sum_toFinset W h₂, heq]

theorem mem_sliceAgg {slice : List Row} {a : AggItem} :
    a ∈ sliceAgg slice ↔
      a.product_id ∈ (slice.map (·.product_id)).dedup ∧
      a.qty = sAggQty slice a.product_id ∧
      a.spend = sAggSpend slice a.product_id ∧
      0 < a.qty ∧ 0 < a.spend := by
  simp only [sliceAgg, List.mem_filterMap]
  constructor
  · rintro ⟨pid, hpid, hsome⟩
    by_cases hc : 0 < sAggQty slice pid ∧ 0 < sAggSpend slice pid
    · rw [if_pos hc] at hsome
      obtain rfl : AggItem.mk pid (sAggQty slice pid) (sAggSpend slice pid) = a := by
        injection hsome
      exact ⟨hpid, rfl, rfl, hc.1, hc.2⟩
    · rw [if_neg hc] at hsome; cases hsome
  · rintro ⟨hpid, hq, hs, hq0, hs0⟩
    refine ⟨a.product_id, hpid, ?_⟩
    rw [if_pos ⟨hq ▸ hq0, hs ▸ hs0⟩]
    cases a with
    | mk p q s =>
      simp only at hq hs
      rw [← hq, ← hs]

theorem mem_perAgg {rows : List Row} {t : PerItem} :
    t ∈ perAgg rows ↔
      (t.period, t.product_id) ∈ (rows.map (fun r => (r.period, r.product_id))).dedup ∧
      t.qty = pAggQty rows t.period t.product_id ∧
      t.spend = pAggSpend rows t.period t.product_id ∧
      0 < t.qty ∧ 0 < t.spend := by
  simp only [perAgg, List.mem_filterMap]
  constructor
  · rintro ⟨k, hk, hsome⟩
    by_cases hc : 0 < pAggQty rows k.1 k.2 ∧ 0 < pAggSpend rows k.1 k.2
    · rw [if_pos hc] at hsome
      obtain rfl : PerItem.mk k.1 k.2 (pAggQty rows k.1 k.2) (pAggSpend rows k.1 k.2) = t := by
        injection hsome
      exact ⟨hk, rfl, rfl, hc.1, hc.2⟩
    · rw [if_neg hc] at hsome; cases hsome
  · rintro ⟨hk, hq, hs, hq0, hs0⟩
    refine ⟨(t.period, t.product_id), hk, ?_⟩
    rw [if_pos ⟨hq ▸ hq0, hs ▸ hs0⟩]
    cases t with
    | mk p pid q s =>
      simp only at hq hs
      rw [← hq, ← hs]

theorem sliceAgg_key_nodup (slice : List Row) :
    ((sliceAgg slice).map (·.product_id)).Nodup := by
  unfold sliceAgg
  refine nodup_key_filterMap (id : Int → Int) (fun a : AggItem => a.product_id) ?_ ?_
  · simpa using (slice.map (·.product_id)).nodup_dedup
  · intro pid a hs
    by_cases hc : 0 < sAggQty slice pid ∧ 0 < sAggSpend slice pid
    · rw [if_pos hc] at hs; injection hs with h; rw [← h]; rfl
    · rw [if_neg hc] at hs; cases hs

theorem perAgg_key_nodup (rows : List Row) :
    ((perAgg rows).map (fun t => (t.period, t.product_id))).Nodup := by
  unfold perAgg
  refine nodup_key_filterMap (id : Int × Int → Int × Int) (fun t : PerItem => (t.period, t.product_id)) ?_ ?_
  · simpa using (rows.map (fun r => (r.period, r.product_id))).nodup_dedup
  · intro k t hs
    by_cases hc : 0 < pAggQty rows k.1 k.2 ∧ 0 < pAggSpend rows k.1 k.2
    · rw [if_pos hc] at hs; injection hs with h; rw [← h]; rfl
    · rw [if_neg hc] at hs; cases hs

theorem mergedRows_key_nodup (rows : List Row) (bp : Int) :
    ((mergedRows rows bp).map (fun y => (y.period, y.product_id))).Nodup := by
  unfold mergedRows
  refine nodup_key_filterMap
    (fun t : PerItem => (t.period, t.product_id))
    (fun y : MRow => (y.period, y.product_id))
    (perAgg_key_nodup rows) ?_
  intro t y hs
  cases hfind : (baseAgg rows bp).find? (fun z => decide (z.product_id = t.product_id)) with
  | none => rw [hfind] at hs; cases hs
  | some b =>
    rw [hfind, Option.some_bind] at hs
    by_cases hc : (0 : ℚ) < b.price ∧ (0 : ℚ) < t.price
    · rw [if_pos hc] at hs; injection hs with h; rw [← h]
    · rw [if_neg hc] at hs; cases hs

theorem mem_mergedRows {rows : List Row} {bp : Int} {y : MRow} :
    y ∈ mergedRows rows bp ↔
      ∃ t ∈ perAgg rows, ∃ b,
        (baseAgg rows bp).find? (fun z => decide (z.product_id = t.product_id)) = some b ∧
        (0 : ℚ) < b.price ∧ (0 : ℚ) < t.price ∧
        y = ⟨t.period, t.product_id, t.price, b.price, b.spend⟩ := by
  simp only [mergedRows, List.mem_filterMap]
  constructor
  · rintro ⟨t, ht, hsome⟩
    cases hfind : (baseAgg rows bp).find? (fun z => decide (z.product_id = t.product_id)) with
    | none => rw [hfind] at hsome; cases hsome
    | some b =>
      rw [hfind, Option.some_bind] at hsome
      by_cases hc : (0 : ℚ) < b.price ∧ (0 : ℚ) < t.price
      · rw [if_pos hc] at hsome
        injection hsome with h
        exact ⟨t, ht, b, hfind, hc.1, hc.2, h.symm⟩
      · rw [if_neg hc] at hsome; cases hsome
  · rintro ⟨t, ht, b, hfind, hb, htp, rfl⟩
    exact ⟨t, ht, by rw [hfind, Option.some_bind, if_pos ⟨hb, htp⟩]⟩

theorem mem_contribMerged {df : List Row} {y : CMRow} :
    y ∈ contribMerged df ↔
      ∃ t ∈ sliceAgg (df.filter (fun r => decide (r.period = maxPeriod df))),
        ∃ b,
          (baseAgg df (minPeriod df)).find?
            (fun z => decide (z.product_id = t.product_id)) = some b ∧
          (0 : ℚ) < b.price ∧ (0 : ℚ) < t.price ∧
          y = ⟨t.product_id, t.price / b.price, b.spend⟩ := by
  simp only [contribMerged, List.mem_filterMap]
  constructor
  · rintro ⟨t, ht, hsome⟩
    cases hfind : (baseAgg df (minPeriod df)).find?
        (fun z => decide (z.product_id = t.product_id)) with
    | none => rw [hfind] at hsome; cases hsome
    | some b =>
      rw [hfind, Option.some_bind] at hsome
      by_cases hc : (0 : ℚ) < b.price ∧ (0 : ℚ) < t.price
      · rw [if_pos hc] at hsome
        injection hsome with h
        exact ⟨t, ht, b, hfind, hc.1, hc.2, h.symm⟩
      · rw [if_neg hc] at hsome; cases hsome
  · rintro ⟨t, ht, b, hfind, hb, htp, rfl⟩
    exact ⟨t, ht, by rw [hfind, Option.some_bind, if_pos ⟨hb, htp⟩]⟩

/-- Every member of a slice aggregate has positive qty, spend and price. -/
theorem sliceAgg_pos {slice : List Row} {a : AggItem} (h : a ∈ sliceAgg slice) :
    0 < a.qty ∧ 0 < a.spend ∧ 0 < a.price := by
  obtain ⟨-, -, -, hq, hs⟩ := mem_sliceAgg.mp h
  exact ⟨hq, hs, div_pos hs hq⟩

/-- The base weight of a product: its base-basket spend, 0 for products
outside the basket (proof infrastructure for the coverage bound). -/
def baseW (rows : List Row) (bp : Int) (pid : Int) : ℚ :=
  match (baseAgg rows bp).find? (fun z => decide (z.product_id = pid)) with
  | some b => b.spend
  | none => 0

theorem baseW_of_mem {rows : List Row} {bp : Int} {b : AggItem}
    (hb : b ∈ baseAgg rows bp) :
    baseW rows bp b.product_id = b.spend := by
  unfold baseW
  rw [find?_key_unique (fun z => z.product_id) (sliceAgg_key_nodup _) hb]

theorem baseW_nonneg (rows : List Row) (bp : Int) (pid : Int) :
    0 ≤ baseW rows bp pid := by
  unfold baseW
  cases hfind : (baseAgg rows bp).find? (fun z => decide (z.product_id = pid)) with
  | none => exact le_refl 0
  | some b =>
    exact le_of_lt (sliceAgg_pos (List.mem_of_find?_eq_some hfind)).2.1

/-- Selected facts about a merged row: its weight is the `baseW` of its
product, positive, and its product belongs to the base basket. -/
theorem mergedRows_weight {rows : List Row} {bp : Int} {y : MRow}
    (hy : y ∈ mergedRows rows bp) :
    y.base_weight = baseW rows bp y.product_id ∧
    0 < y.base_weight ∧
    y.product_id ∈ (baseAgg rows bp).map (·.product_id) := by
  obtain ⟨t, ht, b, hfind, hb, htp, rfl⟩ := mem_mergedRows.mp hy
  have hbmem : b ∈ baseAgg rows bp := List.mem_of_find?_eq_some hfind
  have hbpid : b.product_id = t.product_id := by
    have := List.find?_some hfind
    exact of_decide_eq_true this
  constructor
  · show b.spend = baseW rows bp t.product_id
    rw [← hbpid, baseW_of_mem hbmem]
  constructor
  · exact (sliceAgg_pos hbmem).2.1
  · show t.product_id ∈ _
    rw [← hbpid]
    exact List.mem_map_of_mem _ hbmem

/-- Aggregating `rows` over the pair (base period, product) is the same
as aggregating the base slice over the product: the two `groupby`
blocks of the Python code agree on the base period. -/
theorem pAgg_base (rows : List Row) (bp pid : Int) :
    pAggQty rows bp pid = sAggQty (baseSliceOf rows bp) pid ∧
    pAggSpend rows bp pid = sAggSpend (baseSliceOf rows bp) pid := by
  unfold pAggQty pAggSpend sAggQty sAggSpend baseSliceOf
  rw [List.filter_filter]
  have hpred : ∀ r : Row, r ∈ rows →
      (decide (r.product_id = pid) && decide (r.period = bp)) =
      decide (r.period = bp ∧ r.product_id = pid) := by
    intro r _
    by_cases h1 : r.period = bp <;> by_cases h2 : r.product_id = pid <;>
      simp [h1, h2]
  rw [List.filter_congr hpred]
  exact ⟨rfl, rfl⟩

/-- Every product of the base basket appears in `merged` at the base
period itself (with its base price on both sides). -/
theorem base_mem_merged {rows : List Row} {bp : Int} {b : AggItem}
    (hb : b ∈ baseAgg rows bp) :
    (⟨bp, b.product_id, AggItem.price b, AggItem.price b, b.spend⟩ : MRow) ∈
      mergedRows rows bp := by
  obtain ⟨hpidmem, hqeq, hseq, hq0, hs0⟩ := mem_sliceAgg.mp hb
  have hqbase := (pAgg_base rows bp b.product_id).1
  have hsbase := (pAgg_base rows bp b.product_id).2
  have ht : (⟨bp, b.product_id, b.qty, b.spend⟩ : PerItem) ∈ perAgg rows := by
    rw [mem_perAgg]
    refine ⟨?_, ?_, ?_, hq0, hs0⟩
    · show (bp, b.product_id) ∈ _
      rw [List.mem_dedup] at hpidmem ⊢
      obtain ⟨r, hr, hrpid⟩ := List.mem_map.mp hpidmem
      unfold baseSliceOf at hr
      obtain ⟨hrrows, hrdec⟩ := List.mem_filter.mp hr
      have hrper : r.period = bp := of_decide_eq_true hrdec
      refine List.mem_map.mpr ⟨r, hrrows, ?_⟩
      rw [hrper, hrpid]
    · show b.qty = pAggQty rows bp b.product_id
      rw [hqbase]; exact hqeq
    · show b.spend = pAggSpend rows bp b.product_id
      rw [hsbase]; exact hseq
  rw [mem_mergedRows]
  refine ⟨⟨bp, b.product_id, b.qty, b.spend⟩, ht, b, ?_, ?_, ?_, rfl⟩
  · exact find?_key_unique (fun z => z.product_id) (sliceAgg_key_nodup _) hb
  · exact div_pos hs0 hq0
  · show (0 : ℚ) < b.spend / b.qty
    exact div_pos hs0 hq0

/-- Abstract coverage bound for one emitted period point: the matched
weight sum is positive and bounded by the total base weight, and at the
base period itself it exhausts the basket. -/
theorem lPointOf_coverage
    (m : List MRow) (B : List AggItem) (W : Int → ℚ) (bp : Int)
    (hkey : (m.map (fun y => (y.period, y.product_id))).Nodup)
    (hW : ∀ y ∈ m, y.base_weight = W y.product_id ∧ 0 < y.base_weight ∧
      y.product_id ∈ B.map (·.product_id))
    (hWnn : ∀ i, 0 ≤ W i)
    (hBn : (B.map (·.product_id)).Nodup)
    (hBW : ∀ b ∈ B, W b.product_id = b.spend ∧ 0 < b.spend)
    (hcomplete : ∀ b ∈ B, ∃ y ∈ m, y.period = bp ∧ y.product_id = b.product_id)
    (p : Int) (x0 : MRow) (hx0 : x0 ∈ m) (hx0p : x0.period = p) :
    0 ≤ (lPointOf m ((B.map (·.spend)).sum) p).coverage ∧
    (lPointOf m ((B.map (·.spend)).sum) p).coverage ≤ 1 ∧
    (p = bp → (lPointOf m ((B.map (·.spend)).sum) p).coverage = 1) := by
  have hpmsub : ∀ y ∈ m.filter (fun x => decide (x.period = p)), y ∈ m :=
    fun y hy => List.mem_of_mem_filter hy
  have hpmper : ∀ y ∈ m.filter (fun x => decide (x.period = p)), y.period = p :=
    fun y hy => of_decide_eq_true (List.mem_filter.mp hy).2
  have hx0pm : x0 ∈ m.filter (fun x => decide (x.period = p)) :=
    List.mem_filter.mpr ⟨hx0, decide_eq_true hx0p⟩
  have hkey2 : ((m.filter (fun x => decide (x.period = p))).map
      (fun y => (y.period, y.product_id))).Nodup :=
    hkey.sublist (List.Sublist.map _ (List.filter_sublist m))
  have hS2 : (((m.filter (fun x => decide (x.period = p))).map (·.product_id)).map
      (fun i => (p, i))) =
      (m.filter (fun x => decide (x.period = p))).map
        (fun y => (y.period, y.product_id)) := by
    rw [List.map_map]
    exact List.map_congr_left (fun y hy => by
      simp only [Function.comp_apply]
      rw [hpmper y hy])
  have hSnodup : ((m.filter (fun x => decide (x.period = p))).map (·.product_id)).Nodup :=
    List.Nodup.of_map (fun i => (p, i)) (by rw [hS2]; exact hkey2)
  have hsumS : (((m.filter (fun x => decide (x.period = p))).map (·.base_weight)).sum) =
      ((((m.filter (fun x => decide (x.period = p))).map (·.product_id)).map W).sum) := by
    rw [List.map_map]
    exact congrArg List.sum (List.map_congr_left (fun y hy => (hW y (hpmsub y hy)).1))
  have htotalW : ((B.map (·.spend)).sum) = (((B.map (·.product_id)).map W).sum) := by
    rw [List.map_map]
    exact congrArg List.sum (List.map_congr_left (fun b hb => ((hBW b hb).1).symm))
  have hsub : ∀ i ∈ (m.filter (fun x => decide (x.period = p))).map (·.product_id),
      i ∈ B.map (·.product_id) := by
    intro i hi
    obtain ⟨y, hy, rfl⟩ := List.mem_map.mp hi
    exact (hW y (hpmsub y hy)).2.2
  have htpos : 0 < (B.map (·.spend)).sum := by
    refine list_sum_pos (fun b hb => (hBW b hb).2) ?_
    have hmem := (hW x0 hx0).2.2
    intro hBnil
    rw [hBnil] at hmem
    simp at hmem
  have hspos : 0 < ((m.filter (fun x => decide (x.period = p))).map (·.base_weight)).sum := by
    refine list_sum_pos (fun y hy => (hW y (hpmsub y hy)).2.1) ?_
    exact List.ne_nil_of_mem hx0pm
  have hle : ((m.filter (fun x => decide (x.period = p))).map (·.base_weight)).sum ≤
      (B.map (·.spend)).sum := by
    rw [hsumS, htotalW]
    exact list_sum_le_of_sub W hSnodup hBn hsub hWnn
  refine ⟨le_of_lt (div_pos hspos htpos), (div_le_one htpos).mpr hle, ?_⟩
  intro hpbp
  subst hpbp
  have hsup : ∀ i ∈ B.map (·.product_id),
      i ∈ (m.filter (fun x => decide (x.period = p))).map (·.product_id) := by
    intro i hi
    obtain ⟨b, hb, rfl⟩ := List.mem_map.mp hi
    obtain ⟨y, hy, hyper, hypid⟩ := hcomplete b hb
    exact List.mem_map.mpr ⟨y, List.mem_filter.mpr ⟨hy, decide_eq_true hyper⟩, hypid⟩
  have hfe : ((m.filter (fun x => decide (x.period = p))).map (·.product_id)).toFinset =
      (B.map (·.product_id)).toFinset := by
    refine Finset.Subset.antisymm ?_ ?_ <;> intro i hi <;>
      rw [List.mem_toFinset] at hi ⊢
    · exact hsub i hi
    · exact hsup i hi
  have hseq : ((m.filter (fun x => decide (x.period = p))).map (·.base_weight)).sum =
      (B.map (·.spend)).sum := by
    rw [hsumS, htotalW]
    exact list_sum_eq_of_toFinset_eq W hSnodup hBn hfe
  show ((m.filter (fun x => decide (x.period = p))).map (·.base_weight)).sum /
      (B.map (·.spend)).sum = 1
  rw [hseq]
  exact div_self (ne_of_gt htpos)

/-- Coverage bounds for every point of `laspeyresPoints`. -/
theorem laspeyresPoints_coverage (rows : List Row) (bp : Int) :
    ∀ pt ∈ laspeyresPoints rows bp,
      0 ≤ pt.coverage ∧ pt.coverage ≤ 1 ∧ (pt.period = bp → pt.coverage = 1) := by
  intro pt hpt
  unfold laspeyresPoints at hpt
  obtain ⟨p, hp, rfl⟩ := List.mem_map.mp hpt
  rw [mem_sortByLe, List.mem_dedup] at hp
  obtain ⟨x0, hx0, hx0p⟩ := List.mem_map.mp hp
  have hper : (lPointOf (mergedRows rows bp)
      (((baseAgg rows bp).map (·.spend)).sum) p).period = p := rfl
  rw [hper]
  refine lPointOf_coverage (mergedRows rows bp) (baseAgg rows bp) (baseW rows bp) bp
    (mergedRows_key_nodup rows bp) ?_ (baseW_nonneg rows bp) (sliceAgg_key_nodup _)
    ?_ ?_ p x0 hx0 hx0p
  · intro y hy
    exact mergedRows_weight hy
  · intro b hb
    exact ⟨baseW_of_mem hb, (sliceAgg_pos hb).2.1⟩
  · intro b hb
    exact ⟨⟨bp, b.product_id, b.price, b.price, b.spend⟩, base_mem_merged hb, rfl, rfl⟩

/-- Every point of `_laspeyres_index` comes from `laspeyresPoints`. -/
theorem laspeyresWithBase_points_sub {rows : List Row} {bp : Int} {pt : LPoint}
    (h : pt ∈ (laspeyresWithBase rows bp).points) :
    pt ∈ laspeyresPoints rows bp := by
  unfold laspeyresWithBase at h
  by_cases h1 : baseSliceOf rows bp = []
  · rw [if_pos h1] at h; simp at h
  · rw [if_neg h1] at h
    by_cases h2 : baseAgg rows bp = []
    · rw [if_pos h2] at h; simp at h
    · rw [if_neg h2] at h
      cases hlast : (laspeyresPoints rows bp).getLast? with
      | none => rw [hlast] at h; simp at h
      | some last => rw [hlast] at h; exact h

/-- No product of the base basket with a positive aggregate in a period
means no merged row — hence no emitted point — for that period. -/
theorem laspeyresPoints_skip (rows : List Row) (bp p : Int)
    (h : ∀ pid ∈ (baseAgg rows bp).map (·.product_id),
      ¬(0 < pAggQty rows p pid ∧ 0 < pAggSpend rows p pid)) :
    ∀ pt ∈ laspeyresPoints rows bp, pt.period ≠ p := by
  intro pt hpt
  unfold laspeyresPoints at hpt
  obtain ⟨p', hp', rfl⟩ := List.mem_map.mp hpt
  intro hpp
  have hpp' : p' = p := hpp
  subst hpp'
  rw [mem_sortByLe, List.mem_dedup] at hp'
  obtain ⟨x0, hx0, hx0p⟩ := List.mem_map.mp hp'
  obtain ⟨t, ht, b, hfind, -, -, rfl⟩ := mem_mergedRows.mp hx0
  obtain ⟨-, hq, hs, hq0, hs0⟩ := mem_perAgg.mp ht
  have htper : t.period = p' := hx0p
  obtain ⟨-, -, hpidB⟩ := mergedRows_weight hx0
  refine h t.product_id hpidB ?_
  rw [← htper]
  exact ⟨hq ▸ hq0, hs ▸ hs0⟩

/-- C3: for every prepared dataset and every point emitted by the
Laspeyres basket index, `0 ≤ coverage ≤ 1`; and a point emitted for the
base period itself has coverage exactly 1. -/
theorem c3_coverage_bounds (rows : List Row) (base_period : Option Int) :
    ∀ pt ∈ (laspeyres_index rows base_period).points,
      0 ≤ pt.coverage ∧ pt.coverage ≤ 1 ∧
      (pt.period = base_period.getD (minPeriod rows) → pt.coverage = 1) := by
  intro pt hpt
  unfold laspeyres_index at hpt
  by_cases h0 : rows = []
  · rw [if_pos h0] at hpt; simp at hpt
  · rw [if_neg h0] at hpt
    exact laspeyresPoints_coverage rows _ pt (laspeyresWithBase_points_sub hpt)

/-- C5: a period in which no base-basket product has a positive
aggregate is absent from the Laspeyres output (never emitted as an
index-0 point). -/
theorem c5_zero_matched_period_absent (rows : List Row)
    (base_period : Option Int) (p : Int)
    (hp : p ∈ rows.map (·.period))
    (h : ∀ pid ∈ (baseAgg rows (base_period.getD (minPeriod rows))).map (·.product_id),
      ¬(0 < pAggQty rows p pid ∧ 0 < pAggSpend rows p pid)) :
    ∀ pt ∈ (laspeyres_index rows base_period).points, pt.period ≠ p := by
  intro pt hpt
  unfold laspeyres_index at hpt
  by_cases h0 : rows = []
  · rw [if_pos h0] at hpt; simp at hpt
  · rw [if_neg h0] at hpt
    exact laspeyresPoints_skip rows _ p h pt (laspeyresWithBase_points_sub hpt)

theorem ensureGroupBy_ok {g : String} (hg : g ∈ groupByValues) :
    ensureGroupBy g = .ok g := by
  unfold ensureGroupBy; rw [if_pos hg]

theorem ensurePriceMode_ok {p : String} (hp : p ∈ priceModeValues) :
    ensurePriceMode p = .ok p := by
  unfold ensurePriceMode; rw [if_pos hp]

theorem ensurePromoMode_ok {m : String} (hm : m ∈ promoModeValues) :
    ensurePromoMode m = .ok m := by
  unfold ensurePromoMode; rw [if_pos hm]

theorem product_inflation_index_ok {g p m : String} (pid : Int)
    (raws : List RawRow)
    (hg : g ∈ groupByValues) (hp : p ∈ priceModeValues) (hm : m ∈ promoModeValues) :
    product_inflation_index pid g p m raws =
      .ok (productIndexCore pid (preparedOf m p g raws)) := by
  unfold product_inflation_index
  rw [ensureGroupBy_ok hg, ensurePriceMode_ok hp, ensurePromoMode_ok hm]

theorem basket_inflation_index_ok {g p m : String} (raws : List RawRow)
    (hg : g ∈ groupByValues) (hp : p ∈ priceModeValues) (hm : m ∈ promoModeValues) :
    basket_inflation_index g p m raws =
      .ok (laspeyres_index (preparedOf m p g raws) none) := by
  unfold basket_inflation_index
  rw [ensureGroupBy_ok hg, ensurePriceMode_ok hp, ensurePromoMode_ok hm]

theorem inflation_contributions_ok {g p m : String} (by_ : String) (top : Int)
    (raws : List RawRow)
    (hg : g ∈ groupByValues) (hp : p ∈ priceModeValues) (hm : m ∈ promoModeValues) :
    inflation_contributions by_ g p m top raws =
      .ok (contributionsCore by_ top (preparedOf m p g raws)) := by
  unfold inflation_contributions
  rw [ensureGroupBy_ok hg, ensurePriceMode_ok hp, ensurePromoMode_ok hm]

theorem product_store_price_stats_ok {p m : String} (pid : Int)
    (raws : List RawRow)
    (hp : p ∈ priceModeValues) (hm : m ∈ promoModeValues) :
    product_store_price_stats pid p m raws =
      .ok (storeStatsCore pid (preparedOf m p "day" raws)) := by
  unfold product_store_price_stats
  rw [ensurePriceMode_ok hp, ensurePromoMode_ok hm]

/-- Every matched-basket row carries a positive base weight. -/
theorem contribMerged_weight_pos {df : List Row} {c : CMRow}
    (hc : c ∈ contribMerged df) : 0 < c.base_weight := by
  obtain ⟨t, ht, b, hfind, hb, htp, rfl⟩ := mem_contribMerged.mp hc
  exact (sliceAgg_pos (List.mem_of_find?_eq_some hfind)).2.1

/-- C4: the weight shares of the full (non-truncated) matched basket of
`inflation_contributions` sum to 1 (exactly, hence within 1e-9). -/
theorem c4_weight_normalization (df : List Row)
    (h : contribMerged df ≠ []) :
    |((contribMerged df).map
        (fun c => c.base_weight / ((contribMerged df).map (·.base_weight)).sum)).sum
      - 1| ≤ 1 / 1000000000 := by
  have hS : 0 < ((contribMerged df).map (·.base_weight)).sum :=
    list_sum_pos (fun c hc => contribMerged_weight_pos hc) h
  have hdiv : ((contribMerged df).map
      (fun c => c.base_weight / ((contribMerged df).map (·.base_weight)).sum)).sum
      = ((contribMerged df).map (fun c => c.base_weight)).sum /
        ((contribMerged df).map (·.base_weight)).sum :=
    list_sum_map_div (fun c : CMRow => c.base_weight) _
  rw [hdiv, div_self (ne_of_gt hS)]
  norm_num

def c4Rows : List Row :=
  [⟨1, 0, ⟨2024, 1, 5⟩, 7, none, none, none, none, none, 2, 50, 100⟩,
   ⟨2, 31, ⟨2024, 2, 5⟩, 7, none, none, none, none, none, 2, 60, 120⟩]

theorem c4_witness :
    contribMerged c4Rows ≠ [] ∧
    |((contribMerged c4Rows).map
        (fun c => c.base_weight / ((contribMerged c4Rows).map (·.base_weight)).sum)).sum
      - 1| ≤ 1 / 1000000000 :=
  ⟨by with_unfolding_all decide,
   c4_weight_normalization c4Rows (by with_unfolding_all decide)⟩

/-- When the base and target periods coincide, every matched-basket row
has ratio exactly 1. -/
theorem contribMerged_ratio_one {df : List Row}
    (h : minPeriod df = maxPeriod df) :
    ∀ y ∈ contribMerged df, y.ratio = 1 := by
  intro y hy
  obtain ⟨t, ht, b, hfind, hb, htp, rfl⟩ := mem_contribMerged.mp hy
  have hbase : baseAgg df (minPeriod df) =
      sliceAgg (df.filter (fun r => decide (r.period = maxPeriod df))) := by
    unfold baseAgg baseSliceOf
    rw [h]
  rw [hbase] at hfind
  have hfind2 := find?_key_unique (fun z => AggItem.product_id z)
    (sliceAgg_key_nodup (df.filter (fun r => decide (r.period = maxPeriod df)))) ht
  have hbt : b = t := Option.some.inj (hfind.symm.trans hfind2)
  subst hbt
  show b.price / b.price = 1
  exact div_self (ne_of_gt (sliceAgg_pos ht).2.2)

/-- Under a degenerate (one-bucket) dataset, every emitted contribution
point is flat: ratio 1 (product mode) and contribution 0 (both modes). -/
theorem contributionsCore_degenerate (by_ : String) (top : Int) (df : List Row)
    (h : minPeriod df = maxPeriod df) :
    (∀ c, ContribPoint.productPoint c ∈ (contributionsCore by_ top df).points →
      c.ratio = 1 ∧ c.contribution = 0) ∧
    (∀ c, ContribPoint.categoryPoint c ∈ (contributionsCore by_ top df).points →
      c.contribution = 0) := by
  unfold contributionsCore
  by_cases h0 : df = []
  · rw [if_pos h0]
    constructor <;> intro c hc <;> simp at hc
  · rw [if_neg h0]
    by_cases h1 : baseAgg df (minPeriod df) = []
    · rw [if_pos h1]
      constructor <;> intro c hc <;> simp at hc
    · rw [if_neg h1]
      by_cases h2 : contribMerged df = []
      · rw [if_pos h2]
        constructor <;> intro c hc <;> simp at hc
      · rw [if_neg h2]
        by_cases h3 : by_ = "product"
        · rw [if_pos h3]
          constructor
          · intro c hc
            obtain ⟨c', hc', hinj⟩ := List.mem_map.mp hc
            have hcc : c' = c := by injection hinj
            subst hcc
            have hsort := List.mem_of_mem_take hc'
            rw [mem_sortByLe] at hsort
            obtain ⟨y, hy, rfl⟩ := List.mem_map.mp hsort
            have hr1 := contribMerged_ratio_one h y hy
            refine ⟨hr1, ?_⟩
            show y.base_weight / ((contribMerged df).map (·.base_weight)).sum *
              (y.ratio - 1) * 100 = 0
            rw [hr1]
            ring
          · intro c hc
            obtain ⟨c', hc', hinj⟩ := List.mem_map.mp hc
            cases hinj
        · rw [if_neg h3]
          constructor
          · intro c hc
            obtain ⟨c', hc', hinj⟩ := List.mem_map.mp hc
            cases hinj
          · intro c hc
            obtain ⟨c', hc', hinj⟩ := List.mem_map.mp hc
            have hcc : c' = c := by injection hinj
            subst hcc
            have hsort := List.mem_of_mem_take hc'
            rw [mem_sortByLe] at hsort
            obtain ⟨k, hk, rfl⟩ := List.mem_map.mp hsort
            show ((((contribMerged df).map (fun c => (c, catOf df c.product_id))).filter
                (fun x => decide (x.2 = k))).map
                (fun x => x.1.base_weight / ((contribMerged df).map (·.base_weight)).sum *
                  (x.1.ratio - 1) * 100)).sum = 0
            apply List.sum_eq_zero
            intro q hq
            obtain ⟨x, hx, rfl⟩ := List.mem_map.mp hq
            have hx2 := List.mem_of_mem_filter hx
            obtain ⟨c0, hc0, rfl⟩ := List.mem_map.mp hx2
            have hr1 := contribMerged_ratio_one h c0 hc0
            show c0.base_weight / ((contribMerged df).map (·.base_weight)).sum *
              (c0.ratio - 1) * 100 = 0
            rw [hr1]
            ring

/-- C7: a call to `inflation_contributions` whose prepared dataset has
`min period = max period` succeeds and emits only flat points (ratio 1,
contribution 0), with no special-casing. -/
theorem c7_degenerate_base_eq_target (by_ g p m : String) (top : Int)
    (raws : List RawRow)
    (hg : g ∈ groupByValues) (hp : p ∈ priceModeValues) (hm : m ∈ promoModeValues)
    (h : minPeriod (preparedOf m p g raws) = maxPeriod (preparedOf m p g raws)) :
    ∃ res, inflation_contributions by_ g p m top raws = Except.ok res ∧
      (∀ c, ContribPoint.productPoint c ∈ res.points →
        c.ratio = 1 ∧ c.contribution = 0) ∧
      (∀ c, ContribPoint.categoryPoint c ∈ res.points → c.contribution = 0) :=
  ⟨contributionsCore by_ top (preparedOf m p g raws),
   inflation_contributions_ok by_ top raws hg hp hm,
   contributionsCore_degenerate by_ top _ h⟩

/-- A non-empty matched basket always yields at least one point, for
any `top` (the truncation keeps `max(1, top)` leaders) and either
grouping mode. -/
theorem contributionsCore_points_ne_nil (by_ : String) (top : Int) (df : List Row)
    (hne : contribMerged df ≠ []) :
    (contributionsCore by_ top df).points ≠ [] := by
  have hdf : df ≠ [] := by
    intro h0
    rw [h0] at hne
    exact hne rfl
  have hbase : baseAgg df (minPeriod df) ≠ [] := by
    intro hb
    obtain ⟨y, hy⟩ := List.exists_mem_of_ne_nil _ hne
    obtain ⟨t, ht, b, hfind, -, -, -⟩ := mem_contribMerged.mp hy
    have hmem := List.mem_of_find?_eq_some hfind
    rw [hb] at hmem
    simp at hmem
  have htop : (max 1 top).toNat ≠ 0 := by
    have h1 : (1 : Int) ≤ max 1 top := le_max_left 1 top
    omega
  unfold contributionsCore
  rw [if_neg hdf, if_neg hbase, if_neg hne]
  by_cases h3 : by_ = "product"
  · rw [if_pos h3]
    intro hnil
    rw [List.map_eq_nil_iff, List.take_eq_nil_iff] at hnil
    rcases hnil with hnil | hnil
    · exact htop hnil
    · rw [sortByLe_eq_nil, List.map_eq_nil_iff] at hnil
      exact hne hnil
  · rw [if_neg h3]
    intro hnil
    rw [List.map_eq_nil_iff, List.take_eq_nil_iff] at hnil
    rcases hnil with hnil | hnil
    · exact htop hnil
    · rw [sortByLe_eq_nil, List.map_eq_nil_iff, List.dedup_eq_nil,
        List.map_eq_nil_iff, List.map_eq_nil_iff] at hnil
      exact hne hnil

/-- C9: a call to `inflation_contributions` that reaches a non-empty
matched basket returns at least one point, for every `top` (including
`top ≤ 0`) and both grouping modes. -/
theorem c9_top_clamped_nonempty (by_ g p m : String) (top : Int)
    (raws : List RawRow)
    (hg : g ∈ groupByValues) (hp : p ∈ priceModeValues) (hm : m ∈ promoModeValues)
    (hne : contribMerged (preparedOf m p g raws) ≠ []) :
    ∃ res, inflation_contributions by_ g p m top raws = Except.ok res ∧
      res.points ≠ [] :=
  ⟨contributionsCore by_ top (preparedOf m p g raws),
   inflation_contributions_ok by_ top raws hg hp hm,
   contributionsCore_points_ne_nil by_ top _ hne⟩

/-! ### Witness data -/

/-- Two purchases of one product in two consecutive months. -/
def twoMonthRaws : List RawRow :=
  [{ id := 1, purchase_date := ⟨2024, 1, 10⟩, product_id := some 7,
     product := some "Milk", category_id := some 3, category := some "Dairy",
     store_id := some 1, store := some "A", quantity := some 2,
     total_price := some 100, unit_price := some 50,
     regular_unit_price := none, is_promo := some false },
   { id := 2, purchase_date := ⟨2024, 2, 10⟩, product_id := some 7,
     product := some "Milk", category_id := some 3, category := some "Dairy",
     store_id := some 1, store := some "A", quantity := some 2,
     total_price := some 120, unit_price := some 60,
     regular_unit_price := none, is_promo := some false }]

/-- A single purchase (one period bucket only). -/
def oneRaw : List RawRow :=
  [{ id := 1, purchase_date := ⟨2024, 1, 10⟩, product_id := some 7,
     product := some "Milk", category_id := some 3, category := some "Dairy",
     store_id := some 1, store := some "A", quantity := some 2,
     total_price := some 100, unit_price := some 50,
     regular_unit_price := none, is_promo := some false }]

/-- Prepared rows with a second-period product absent from the base
basket. -/
def c5Rows : List Row :=
  [⟨1, 0, ⟨2024, 1, 5⟩, 7, none, none, none, none, none, 2, 50, 100⟩,
   ⟨2, 31, ⟨2024, 2, 5⟩, 8, none, none, none, none, none, 2, 60, 120⟩]

theorem c3_witness :
    (⟨0, 100, 1, 1⟩ : LPoint) ∈ (laspeyres_index c4Rows none).points ∧
    (0 ≤ (⟨0, 100, 1, 1⟩ : LPoint).coverage ∧
     (⟨0, 100, 1, 1⟩ : LPoint).coverage ≤ 1 ∧
     ((⟨0, 100, 1, 1⟩ : LPoint).period = (none : Option Int).getD (minPeriod c4Rows) →
       (⟨0, 100, 1, 1⟩ : LPoint).coverage = 1)) :=
  ⟨by with_unfolding_all decide,
   c3_coverage_bounds c4Rows none ⟨0, 100, 1, 1⟩ (by with_unfolding_all decide)⟩

theorem c5_witness :
    ((31 : Int) ∈ c5Rows.map (·.period)) ∧
    (∀ pid ∈ (baseAgg c5Rows ((none : Option Int).getD (minPeriod c5Rows))).map
        (·.product_id),
      ¬(0 < pAggQty c5Rows 31 pid ∧ 0 < pAggSpend c5Rows 31 pid)) ∧
    (∀ pt ∈ (laspeyres_index c5Rows none).points, pt.period ≠ 31) :=
  ⟨by with_unfolding_all decide,
   by with_unfolding_all decide,
   c5_zero_matched_period_absent c5Rows none 31
     (by with_unfolding_all decide) (by with_unfolding_all decide)⟩

theorem c7_witness :
    ("month" ∈ groupByValues) ∧ ("paid" ∈ priceModeValues) ∧
    ("include" ∈ promoModeValues) ∧
    minPeriod (preparedOf "include" "paid" "month" oneRaw) =
      maxPeriod (preparedOf "include" "paid" "month" oneRaw) ∧
    (∃ res, inflation_contributions "product" "month" "paid" "include" 10 oneRaw =
        Except.ok res ∧
      (∀ c, ContribPoint.productPoint c ∈ res.points →
        c.ratio = 1 ∧ c.contribution = 0) ∧
      (∀ c, ContribPoint.categoryPoint c ∈ res.points → c.contribution = 0)) :=
  ⟨by decide, by decide, by decide, by with_unfolding_all decide,
   c7_degenerate_base_eq_target "product" "month" "paid" "include" 10 oneRaw
     (by decide) (by decide) (by decide) (by with_unfolding_all decide)⟩

theorem c9_witness :
    ("month" ∈ groupByValues) ∧ ("paid" ∈ priceModeValues) ∧
    ("include" ∈ promoModeValues) ∧
    contribMerged (preparedOf "include" "paid" "month" twoMonthRaws) ≠ [] ∧
    (∃ res, inflation_contributions "product" "month" "paid" "include" 0
        twoMonthRaws = Except.ok res ∧ res.points ≠ []) :=
  ⟨by decide, by decide, by decide, by with_unfolding_all decide,
   c9_top_clamped_nonempty "product" "month" "paid" "include" 0 twoMonthRaws
     (by decide) (by decide) (by decide) (by with_unfolding_all decide)⟩

/-- Whether a row survives normalization does not depend on the
grouping literal (which only sets the row's period bucket). -/
theorem prepRow_none_iff (pm g g' : String) (r : RawRow) :
    prepRow pm g r = none ↔ prepRow pm g' r = none := by
  unfold prepRow
  cases hq : r.quantity with
  | none => simp
  | some q =>
    cases hu : unitPriceUsed pm r with
    | none => by_cases h0 : 0 < q <;> simp [h0]
    | some u =>
      cases hpid : r.product_id with
      | none => by_cases h0 : 0 < q <;> by_cases h1 : 0 < u <;> simp [h0, h1]
      | some pid => by_cases h0 : 0 < q <;> by_cases h1 : 0 < u <;> simp [h0, h1]

/-- An empty prepared frame stays empty under any grouping literal. -/
theorem preparedOf_nil (mm pm g g' : String) (raws : List RawRow)
    (h : preparedOf mm pm g raws = []) : preparedOf mm pm g' raws = [] := by
  unfold preparedOf at h ⊢
  rw [List.filterMap_eq_nil_iff] at h ⊢
  intro r hr
  exact (prepRow_none_iff pm g g' r).mp (h r hr)

/-- C2: with valid mode literals, an input whose rows are absent or all
dropped by normalization makes every compute entry point return the
well-formed empty structure (empty points, null or zeroed/partial KPI)
instead of raising. -/
theorem c2_empty_input_safety (g p m : String) (pid : Int) (by_ : String)
    (top : Int) (raws : List RawRow)
    (hg : g ∈ groupByValues) (hp : p ∈ priceModeValues) (hm : m ∈ promoModeValues)
    (hempty : preparedOf m p g raws = []) :
    product_inflation_index pid g p m raws = .ok ⟨[], none⟩ ∧
    basket_inflation_index g p m raws = .ok ⟨[], emptyLKpi none⟩ ∧
    inflation_contributions by_ g p m top raws = .ok ⟨[], ⟨by_, none, none, none⟩⟩ ∧
    product_store_price_stats pid p m raws = .ok ⟨[], ⟨pid, 0, none, none⟩⟩ := by
  have hday : preparedOf m p "day" raws = [] := preparedOf_nil m p g "day" raws hempty
  refine ⟨?_, ?_, ?_, ?_⟩
  · rw [product_inflation_index_ok pid raws hg hp hm, hempty]
    rfl
  · rw [basket_inflation_index_ok raws hg hp hm, hempty]
    rfl
  · rw [inflation_contributions_ok by_ top raws hg hp hm, hempty]
    rfl
  · rw [product_store_price_stats_ok pid raws hp hm, hday]
    rfl

/-- A raw row whose quantity is null: dropped by normalization. -/
def droppedRaw : List RawRow :=
  [{ id := 1, purchase_date := ⟨2024, 1, 10⟩, product_id := some 7,
     product := some "Milk", category_id := none, category := none,
     store_id := some 1, store := some "A", quantity := none,
     total_price := some 100, unit_price := some 50,
     regular_unit_price := none, is_promo := some false }]

theorem c2_witness :
    ("month" ∈ groupByValues) ∧ ("paid" ∈ priceModeValues) ∧
    ("include" ∈ promoModeValues) ∧
    preparedOf "include" "paid" "month" droppedRaw = [] ∧
    (product_inflation_index 7 "month" "paid" "include" droppedRaw =
        .ok ⟨[], none⟩ ∧
      basket_inflation_index "month" "paid" "include" droppedRaw =
        .ok ⟨[], emptyLKpi none⟩ ∧
      inflation_contributions "product" "month" "paid" "include" 10 droppedRaw =
        .ok ⟨[], ⟨"product", none, none, none⟩⟩ ∧
      product_store_price_stats 7 "paid" "include" droppedRaw =
        .ok ⟨[], ⟨7, 0, none, none⟩⟩) :=
  ⟨by decide, by decide, by decide, by with_unfolding_all decide,
   c2_empty_input_safety "month" "paid" "include" 7 "product" 10 droppedRaw
     (by decide) (by decide) (by decide) (by with_unfolding_all decide)⟩

theorem ensureGroupBy_err {g : String} (hg : g ∉ groupByValues) :
    ensureGroupBy g = .error groupByErr := by
  unfold ensureGroupBy; rw [if_neg hg]

theorem ensurePriceMode_err {p : String} (hp : p ∉ priceModeValues) :
    ensurePriceMode p = .error priceModeErr := by
  unfold ensurePriceMode; rw [if_neg hp]

theorem ensurePromoMode_err {m : String} (hm : m ∉ promoModeValues) :
    ensurePromoMode m = .error promoModeErr := by
  unfold ensurePromoMode; rw [if_neg hm]

/-- C6: an unknown `group_by`, `price_mode` or `promo_mode` literal
makes every compute entry point fail with the validator's error, for
every input — the data is never consulted and the literal never
coerced.  (`product_store_price_stats` takes no `group_by`, so for it
the guarantee covers its two mode literals.) -/
theorem c6_validation_rejects (g p m : String)
    (h : g ∉ groupByValues ∨ p ∉ priceModeValues ∨ m ∉ promoModeValues) :
    (∃ e, ∀ (pid : Int) (raws : List RawRow),
      product_inflation_index pid g p m raws = .error e) ∧
    (∃ e, ∀ raws : List RawRow, basket_inflation_index g p m raws = .error e) ∧
    (∃ e, ∀ (by_ : String) (top : Int) (raws : List RawRow),
      inflation_contributions by_ g p m top raws = .error e) ∧
    ((p ∉ priceModeValues ∨ m ∉ promoModeValues) →
      ∃ e, ∀ (pid : Int) (raws : List RawRow),
        product_store_price_stats pid p m raws = .error e) := by
  have hstats : (p ∉ priceModeValues ∨ m ∉ promoModeValues) →
      ∃ e, ∀ (pid : Int) (raws : List RawRow),
        product_store_price_stats pid p m raws = .error e := by
    intro h'
    by_cases hp : p ∈ priceModeValues
    · rcases h' with h' | h'
      · exact absurd hp h'
      · refine ⟨promoModeErr, fun pid raws => ?_⟩
        unfold product_store_price_stats
        rw [ensurePriceMode_ok hp, ensurePromoMode_err h']
    · refine ⟨priceModeErr, fun pid raws => ?_⟩
      unfold product_store_price_stats
      rw [ensurePriceMode_err hp]
  by_cases hg : g ∈ groupByValues
  · have hpm : p ∉ priceModeValues ∨ m ∉ promoModeValues := by
      rcases h with h | h | h
      · exact absurd hg h
      · exact Or.inl h
      · exact Or.inr h
    refine ⟨?_, ?_, ?_, hstats⟩ <;>
      [skip; skip; skip] <;>
      by_cases hp : p ∈ priceModeValues
    · have hm' : m ∉ promoModeValues := by
        rcases hpm with h' | h'
        · exact absurd hp h'
        · exact h'
      refine ⟨promoModeErr, fun pid raws => ?_⟩
      unfold product_inflation_index
      rw [ensureGroupBy_ok hg, ensurePriceMode_ok hp, ensurePromoMode_err hm']
    · refine ⟨priceModeErr, fun pid raws => ?_⟩
      unfold product_inflation_index
      rw [ensureGroupBy_ok hg, ensurePriceMode_err hp]
    · have hm' : m ∉ promoModeValues := by
        rcases hpm with h' | h'
        · exact absurd hp h'
        · exact h'
      refine ⟨promoModeErr, fun raws => ?_⟩
      unfold basket_inflation_index
      rw [ensureGroupBy_ok hg, ensurePriceMode_ok hp, ensurePromoMode_err hm']
    · refine ⟨priceModeErr, fun raws => ?_⟩
      unfold basket_inflation_index
      rw [ensureGroupBy_ok hg, ensurePriceMode_err hp]
    · have hm' : m ∉ promoModeValues := by
        rcases hpm with h' | h'
        · exact absurd hp h'
        · exact h'
      refine ⟨promoModeErr, fun by_ top raws => ?_⟩
      unfold inflation_contributions
      rw [ensureGroupBy_ok hg, ensurePriceMode_ok hp, ensurePromoMode_err hm']
    · refine ⟨priceModeErr, fun by_ top raws => ?_⟩
      unfold inflation_contributions
      rw [ensureGroupBy_ok hg, ensurePriceMode_err hp]
  · refine ⟨⟨groupByErr, fun pid raws => ?_⟩, ⟨groupByErr, fun raws => ?_⟩,
      ⟨groupByErr, fun by_ top raws => ?_⟩, hstats⟩
    · unfold product_inflation_index
      rw [ensureGroupBy_err hg]
    · unfold basket_inflation_index
      rw [ensureGroupBy_err hg]
    · unfold inflation_contributions
      rw [ensureGroupBy_err hg]

theorem c6_witness :
    (("quarter" : String) ∉ groupByValues ∨
      ("paid" : String) ∉ priceModeValues ∨
      ("include" : String) ∉ promoModeValues) ∧
    ((∃ e, ∀ (pid : Int) (raws : List RawRow),
        product_inflation_index pid "quarter" "paid" "include" raws = .error e) ∧
     (∃ e, ∀ raws : List RawRow,
        basket_inflation_index "quarter" "paid" "include" raws = .error e) ∧
     (∃ e, ∀ (by_ : String) (top : Int) (raws : List RawRow),
        inflation_contributions by_ "quarter" "paid" "include" top raws = .error e) ∧
     ((("paid" : String) ∉ priceModeValues ∨
       ("include" : String) ∉ promoModeValues) →
      ∃ e, ∀ (pid : Int) (raws : List RawRow),
        product_store_price_stats pid "paid" "include" raws = .error e)) :=
  ⟨Or.inl (by decide),
   c6_validation_rejects "quarter" "paid" "include" (Or.inl (by decide))⟩

/-- C8: for `group_by = week` the period bucket of a date is the Monday
of the ISO week containing it — the unique day of weekday 0 (Monday)
at distance less than 7 at or before the date.  Dates carry no time
component in this model, matching the normalized timestamps. -/
theorem c8_week_bucket_monday (d : CalDate) :
    weekdayOf (periodStart "week" d) = 0 ∧
    periodStart "week" d ≤ toDay d ∧
    toDay d < periodStart "week" d + 7 ∧
    (∀ x : Int, weekdayOf x = 0 → x ≤ toDay d → toDay d < x + 7 →
      x = periodStart "week" d) := by
  have hps : periodStart "week" d = toDay d - weekdayOf (toDay d) := rfl
  rw [hps]
  unfold weekdayOf
  refine ⟨?_, ?_, ?_, ?_⟩
  · omega
  · omega
  · omega
  · intro x hx h1 h2
    omega

theorem c8_witness :
    weekdayOf (periodStart "week" ⟨2024, 1, 10⟩) = 0 ∧
    periodStart "week" ⟨2024, 1, 10⟩ ≤ toDay ⟨2024, 1, 10⟩ ∧
    toDay ⟨2024, 1, 10⟩ < periodStart "week" ⟨2024, 1, 10⟩ + 7 ∧
    (∀ x : Int, weekdayOf x = 0 → x ≤ toDay ⟨2024, 1, 10⟩ →
      toDay ⟨2024, 1, 10⟩ < x + 7 → x = periodStart "week" ⟨2024, 1, 10⟩) :=
  c8_week_bucket_monday ⟨2024, 1, 10⟩

/-- C10: a row with a null `is_promo` is treated as non-promotional by
the promo filter — kept under `include` and `exclude`, dropped under
`only`. -/
theorem c10_null_promo (df : List RawRow) (r : RawRow)
    (hr : r ∈ df) (hnull : r.is_promo = none) :
    r ∈ applyPromoFilter "include" df ∧
    r ∈ applyPromoFilter "exclude" df ∧
    r ∉ applyPromoFilter "only" df := by
  have hdf : df ≠ [] := List.ne_nil_of_mem hr
  have h1 : applyPromoFilter "include" df = df := by
    unfold applyPromoFilter
    rw [if_neg hdf]
    rfl
  have h2 : applyPromoFilter "exclude" df =
      df.filter (fun x => !(x.is_promo.getD false)) := by
    unfold applyPromoFilter
    rw [if_neg hdf]
    rfl
  have h3 : applyPromoFilter "only" df =
      df.filter (fun x => x.is_promo.getD false) := by
    unfold applyPromoFilter
    rw [if_neg hdf]
    rfl
  refine ⟨by rw [h1]; exact hr, ?_, ?_⟩
  · rw [h2]
    refine List.mem_filter.mpr ⟨hr, ?_⟩
    rw [hnull]
    rfl
  · rw [h3]
    intro hmem
    have hval := (List.mem_filter.mp hmem).2
    rw [hnull] at hval
    simp at hval

/-- A raw row with a null `is_promo` flag. -/
def nullPromoRaw : RawRow :=
  { id := 1, purchase_date := ⟨2024, 1, 10⟩, product_id := some 7,
    product := some "Milk", category_id := none, category := none,
    store_id := some 1, store := some "A", quantity := some 2,
    total_price := some 100, unit_price := some 50,
    regular_unit_price := none, is_promo := none }

theorem c10_witness :
    nullPromoRaw ∈ [nullPromoRaw] ∧ nullPromoRaw.is_promo = none ∧
    (nullPromoRaw ∈ applyPromoFilter "include" [nullPromoRaw] ∧
     nullPromoRaw ∈ applyPromoFilter "exclude" [nullPromoRaw] ∧
     nullPromoRaw ∉ applyPromoFilter "only" [nullPromoRaw]) :=
  ⟨List.mem_singleton.mpr rfl, rfl,
   c10_null_promo [nullPromoRaw] nullPromoRaw (List.mem_singleton.mpr rfl) rfl⟩

/-- The spec's literal scenario: one product, three monthly purchases
(Jan qty 2 total 100, Feb qty 2 total 120, Mar qty 2 total 150), with
`unit_price = total/qty` as the stored model computes it. -/
def c1Rows : List RawRow :=
  [{ id := 1, purchase_date := ⟨2024, 1, 10⟩, product_id := some 1,
     product := some "Milk", category_id := none, category := none,
     store_id := some 1, store := some "A", quantity := some 2,
     total_price := some 100, unit_price := some 50,
     regular_unit_price := none, is_promo := some false },
   { id := 2, purchase_date := ⟨2024, 2, 10⟩, product_id := some 1,
     product := some "Milk", category_id := none, category := none,
     store_id := some 1, store := some "A", quantity := some 2,
     total_price := some 120, unit_price := some 60,
     regular_unit_price := none, is_promo := some false },
   { id := 3, purchase_date := ⟨2024, 3, 10⟩, product_id := some 1,
     product := some "Milk", category_id := none, category := none,
     store_id := some 1, store := some "A", quantity := some 2,
     total_price := some 150, unit_price := some 75,
     regular_unit_price := none, is_promo := some false }]

/-- The KPI dict the scenario call actually returns. -/
def c1Kpi : List (String × PyVal) :=
  match product_inflation_index 1 "month" "paid" "include" c1Rows with
  | .ok res => res.kpi.getD []
  | .error _ => []

/-- C1 counterexample: the KPI of `product_inflation_index` has no
`inflation_total` key at all, so it cannot equal 50.0 there — that key
exists only in the Laspeyres basket KPI. -/
theorem c1_counterexample :
    ¬(c1Kpi.lookup "inflation_total" = some (PyVal.pRat 50)) ∧
    c1Kpi.lookup "inflation_total" = none := by
  with_unfolding_all decide

/-- C1 (amended): on the literal scenario the call returns avg unit
prices 50/60/75, `index_100` 100/120/150, a last-point
`inflation_pct_from_base` of 50.0, KPI `last_index_100 = 150.0` and
`change_vs_prev_period_pct = 25.0`; the KPI carries no
`inflation_total` key. -/
theorem c1_amended_scenario :
    product_inflation_index 1 "month" "paid" "include" c1Rows =
      .ok ⟨[⟨toDay ⟨2024, 1, 1⟩, 50, 100, 0, 1⟩,
            ⟨toDay ⟨2024, 2, 1⟩, 60, 120, 20, 1⟩,
            ⟨toDay ⟨2024, 3, 1⟩, 75, 150, 50, 1⟩],
           some [("product_id", .pInt 1),
                 ("base_period", .pInt (toDay ⟨2024, 1, 1⟩)),
                 ("base_price", .pRat 50),
                 ("last_period", .pInt (toDay ⟨2024, 3, 1⟩)),
                 ("last_avg_unit_price", .pRat 75),
                 ("last_index_100", .pRat 150),
                 ("change_vs_prev_period_pct", .pRat 25),
                 ("last_n", .pInt 1)]⟩ := by
  with_unfolding_all rfl

example : toDay ⟨1970, 1, 1⟩ = 0 := by decide

example : toDay ⟨2024, 1, 10⟩ = 19732 := by decide

example : weekdayOf (toDay ⟨2024, 1, 10⟩) = 2 := by decide
